import Mathlib

/-!
Verification of the GeoMX example training script (src/examples/cnn.py).

The script is a linear procedure: parse command-line flags, build a model,
select a synchronization mode (creating a key-value store and possibly
setting a server-side optimizer), initialize parameters in the store,
then run a training loop that pushes gradients and pulls authoritative
parameter values every batch, with one global barrier per batch.

We embed the script shallowly: the observable behaviour of one worker
process is a trace of framework operations (an inductive Event type),
generated by Lean functions that mirror the Python control flow line by
line.  External quantities the framework supplies (whether the store
reports this process as master worker, the authoritative values a pull
returns, the wall clock, the evaluated accuracy) are oracle parameters.
Tensors are flattened lists of rationals.
-/

namespace GeoMX

/-- Default value of a command-line flag, as declared by argparse in
lines 36 to 44 of cnn.py. -/
inductive ArgDefault where
  | ratVal (q : Rat)
  | natVal (n : Nat)
  | storeTrueFlag
deriving DecidableEq, Repr

/-- Declaration of a single argparse flag: optional short name, long
name, and its default (boolean switches default to false). -/
structure FlagSpec where
  short : Option String
  long : String
  default : ArgDefault
deriving DecidableEq, Repr

/-- The argparse flag declarations of cnn.py lines 36 to 44, in program
order. -/
def cliFlags : List FlagSpec :=
  [ ⟨some "-lr", "--learning-rate", ArgDefault.ratVal (1 / 100)⟩,
    ⟨some "-bs", "--batch-size", ArgDefault.natVal 32⟩,
    ⟨some "-ds", "--data-slice-idx", ArgDefault.natVal 0⟩,
    ⟨some "-ep", "--epoch", ArgDefault.natVal 5⟩,
    ⟨some "-ms", "--mix-sync", ArgDefault.storeTrueFlag⟩,
    ⟨some "-dc", "--dcasgd", ArgDefault.storeTrueFlag⟩,
    ⟨some "-sc", "--split-by-class", ArgDefault.storeTrueFlag⟩,
    ⟨some "-c", "--cpu", ArgDefault.storeTrueFlag⟩,
    ⟨none, "--local", ArgDefault.storeTrueFlag⟩ ]

/-- Parsed command-line arguments of cnn.py (lines 47 to 55), with the
argparse defaults. -/
structure Args where
  learning_rate : Rat := 1 / 100
  batch_size : Nat := 32
  data_slice_idx : Nat := 0
  epoch : Nat := 5
  mix_sync : Bool := false
  dcasgd : Bool := false
  split_by_class : Bool := false
  cpu : Bool := false
  run_local : Bool := false
deriving DecidableEq, Repr

/-- Optimizer object handed to set_optimizer, with the learning rate it
was constructed with (lines 77, 82, 86, 91). -/
inductive OptimizerCfg where
  | adam (lr : Rat)
  | dcasgdOpt (lr : Rat)
deriving DecidableEq, Repr

/-- Learning rate stored inside an optimizer object. -/
def OptimizerCfg.lr : OptimizerCfg → Rat
  | OptimizerCfg.adam q => q
  | OptimizerCfg.dcasgdOpt q => q

/-- Result of the mode-selection block: which store string was passed to
mx.kv.create, the local is_master_worker flag, and the optimizer this
process passed to set_optimizer, if it called set_optimizer at all. -/
structure ModeConfig where
  storeType : String
  is_master_worker : Bool
  optimizerSet : Option OptimizerCfg
deriving DecidableEq, Repr

/-- Embeds the if/elif chain of cnn.py lines 73 to 91.  The oracle
masterReported is the is_master_worker value the created distributed
store reports for this process; in the run_local branch the script
hard-codes is_master_worker to False and calls set_optimizer
unconditionally. -/
def selectMode (a : Args) (masterReported : Bool) : ModeConfig :=
  if a.mix_sync then
    { storeType := "dist_async",
      is_master_worker := masterReported,
      optimizerSet :=
        if masterReported then some (OptimizerCfg.adam a.learning_rate) else none }
  else if a.dcasgd then
    { storeType := "dist_async",
      is_master_worker := masterReported,
      optimizerSet :=
        if masterReported then some (OptimizerCfg.dcasgdOpt a.learning_rate) else none }
  else if a.run_local then
    { storeType := "local",
      is_master_worker := false,
      optimizerSet := some (OptimizerCfg.adam a.learning_rate) }
  else
    { storeType := "dist_sync",
      is_master_worker := masterReported,
      optimizerSet :=
        if masterReported then some (OptimizerCfg.adam a.learning_rate) else none }

/-- Tensor contents: a flattened list of rational element values. -/
abbrev Tensor : Type := List Rat

/-- Zero-filled tensor with the given number of elements: embeds
mx.nd.zeros at line 138 (the astype to float32 is the identity on our
exact-rational model). -/
def zerosTensor (n : Nat) : Tensor := List.replicate n (0 : Rat)

/-- Model parameter tensor as seen by the script: the gradient
requirement string, the current data array, the current gradient array,
and the element count used when allocating zeros of its shape. -/
structure Param where
  grad_req : String
  data : Tensor
  grad : Tensor
  shape : Nat
deriving DecidableEq, Repr

/-- Destination buffer of a pull operation. -/
inductive PullDest where
  | paramData (idx : Nat)
deriving DecidableEq, Repr

/-- Observable framework operations performed by the script, in program
order.  Push and pull record the key index, the value or destination,
and the priority keyword argument. -/
inductive Event where
  | setOptimizerOp (o : OptimizerCfg)
  | initOp (idx : Nat) (v : Tensor)
  | pushOp (idx : Nat) (v : Tensor) (priority : Int)
  | pullOp (idx : Nat) (dest : PullDest) (priority : Int)
  | waitall
  | loadDataOp
  | startLine (numWorkers : Nat) (rank : Nat)
  | evalAccOp
  | logLine (elapsed : Rat) (epoch : Nat) (iter : Nat) (acc : Rat)
deriving DecidableEq, Repr

/-- Recognizer for the per-batch progress print (line 148). -/
def Event.isLog : Event → Bool
  | Event.logLine _ _ _ _ => true
  | _ => false

/-- Recognizer for an accuracy evaluation (line 147). -/
def Event.isEval : Event → Bool
  | Event.evalAccOp => true
  | _ => false

/-- Recognizer for a push (line 137). -/
def Event.isPush : Event → Bool
  | Event.pushOp _ _ _ => true
  | _ => false

/-- Recognizer for a pull (lines 104 and 139). -/
def Event.isPull : Event → Bool
  | Event.pullOp _ _ _ => true
  | _ => false

/-- Embeds the parameter-initialization loop of lines 98 to 104: for
each parameter at enumeration index idx, skip it when grad_req is
"null"; otherwise call init(idx, param.data()), and, unless this worker
is the master, pull the starting value into param.data() with priority
-idx (the oracle initAuth gives the value that pull deposits).  Returns
the parameter list after the pulls together with the events issued. -/
def initLoop (isMaster : Bool) (initAuth : Nat → Tensor) :
    Nat → List Param → List Param × List Event
  | _, [] => ([], [])
  | idx, p :: rest =>
    if p.grad_req = "null" then
      let r := initLoop isMaster initAuth (idx + 1) rest
      (p :: r.1, r.2)
    else if isMaster then
      let r := initLoop isMaster initAuth (idx + 1) rest
      (p :: r.1, Event.initOp idx p.data :: r.2)
    else
      let r := initLoop isMaster initAuth (idx + 1) rest
      ({ p with data := initAuth idx } :: r.1,
       Event.initOp idx p.data ::
         Event.pullOp idx (PullDest.paramData idx) (-(idx : Int)) :: r.2)

/-- The initialization phase, lines 98 to 105: the enumeration loop
followed by the global mx.nd.waitall barrier. -/
def initPhase (isMaster : Bool) (initAuth : Nat → Tensor) (params : List Param) :
    List Param × List Event :=
  let r := initLoop isMaster initAuth 0 params
  (r.1, r.2 ++ [Event.waitall])

/-- Elementwise division of the gradient tensor by the sample count:
embeds the expression param.grad() / num_samples at line 137. -/
def scaleGrad (g : Tensor) (numSamples : Nat) : Tensor :=
  g.map (fun x => x / (numSamples : Rat))

/-- One batch of local training data: the sample count that get_batch
returns and the gradient tensor that the backward pass writes into each
parameter (positional, by enumeration index in the parameter list). -/
structure Batch where
  numSamples : Nat
  grads : List Tensor
deriving DecidableEq, Repr

/-- Writes the gradients the backward pass computed for this batch into
the parameter tensors (lines 128 to 132); parameters beyond the
gradient list keep their old gradient. -/
def setGrads : List Param → List Tensor → List Param
  | [], _ => []
  | ps, [] => ps
  | p :: ps, g :: gs => { p with grad := g } :: setGrads ps gs

/-- Embeds the per-parameter synchronization loop of lines 134 to 141:
for each parameter at enumeration index idx, skip it when grad_req is
"null"; otherwise push the gradient divided by num_samples with
priority -idx, allocate a zero tensor temp of the parameter shape
(line 138), and pull the authoritative value into param.data() with
priority -idx (lines 140 and 141 of the source are commented out, so
temp is never touched again).  The oracle auth gives the value the pull
deposits at each index.  Returns the updated parameters, the temp
allocation list with the new temps appended, and the events issued. -/
def runParamsLoop (auth : Nat → Tensor) (numSamples : Nat) :
    Nat → List Param → List Tensor → List Param × List Tensor × List Event
  | _, [], temps => ([], temps, [])
  | idx, p :: rest, temps =>
    if p.grad_req = "null" then
      let r := runParamsLoop auth numSamples (idx + 1) rest temps
      (p :: r.1, r.2.1, r.2.2)
    else
      let temp := zerosTensor p.shape
      let r := runParamsLoop auth numSamples (idx + 1) rest (temps ++ [temp])
      ({ p with data := auth idx } :: r.1, r.2.1,
       Event.pushOp idx (scaleGrad p.grad numSamples) (-(idx : Int)) ::
         Event.pullOp idx (PullDest.paramData idx) (-(idx : Int)) :: r.2.2)

/-- Oracles for the quantities the external framework supplies during
the training loop, indexed by the number of batches processed so far:
the authoritative store values a pull returns, the wall-clock reading
taken for the progress print, and the evaluated test accuracy.  Also
the time.time() reading taken at line 120 and the worker count and rank
the store reports (lines 92 and 93). -/
structure Env where
  auth : Nat → Nat → Tensor
  clock : Nat → Rat
  beginTime : Rat
  acc : Nat → Rat
  num_all_workers : Nat
  my_rank : Nat

/-- Mutable state of the training loop: the parameter list, the
global_iters counter (line 122), the number of batches processed so far
(drives the oracles), and the list of temp tensors allocated. -/
structure TrainState where
  params : List Param
  global_iters : Nat
  batchCount : Nat
  temps : List Tensor

/-- Embeds one iteration of the inner batch loop, lines 126 to 149:
forward and backward set the gradients, the synchronization loop pushes
and pulls every trainable parameter, mx.nd.waitall blocks (line 142),
global_iters is incremented (line 144), accuracy is evaluated
(line 147) and the progress line prints elapsed time, epoch, iteration
and accuracy in that order (lines 148 and 149). -/
def runBatch (env : Env) (epoch : Nat) (b : Batch) (st : TrainState) :
    TrainState × List Event :=
  let ps := setGrads st.params b.grads
  let r := runParamsLoop (env.auth st.batchCount) b.numSamples 0 ps st.temps
  let gi := st.global_iters + 1
  let k := st.batchCount
  (⟨r.1, gi, k + 1, r.2.1⟩,
   r.2.2 ++
     [Event.waitall, Event.evalAccOp,
      Event.logLine (env.clock k - env.beginTime) epoch gi (env.acc k)])

/-- Runs the inner loop over the whole local data shard (line 126). -/
def runEpochBatches (env : Env) (epoch : Nat) :
    List Batch → TrainState → TrainState × List Event
  | [], st => (st, [])
  | b :: rest, st =>
    let r1 := runBatch env epoch b st
    let r2 := runEpochBatches env epoch rest r1.1
    (r2.1, r1.2 ++ r2.2)

/-- Runs count epochs starting at epoch number e, embedding the outer
loop for epoch in range(epochs) at line 125. -/
def runEpochsFrom (env : Env) (batches : List Batch) :
    Nat → Nat → TrainState → TrainState × List Event
  | _, 0, st => (st, [])
  | e, Nat.succ k, st =>
    let r1 := runEpochBatches env e batches st
    let r2 := runEpochsFrom env batches (e + 1) k r1.1
    (r2.1, r1.2 ++ r2.2)

/-- Training-loop state at line 122: global_iters starts at 1, no
batches processed, no temps allocated. -/
def initialTrainState (params : List Param) : TrainState :=
  ⟨params, 1, 0, []⟩

/-- Events of the whole training phase, lines 120 to 149, starting from
epoch 0 as range(epochs) does. -/
def trainingEvents (env : Env) (batches : List Batch) (epochs : Nat)
    (params : List Param) : List Event :=
  (runEpochsFrom env batches 0 epochs (initialTrainState params)).2

/-- Call to set_optimizer made by this process during mode selection, as
an event list (empty when the process does not call set_optimizer). -/
def modeEvents (a : Args) (masterReported : Bool) : List Event :=
  match (selectMode a masterReported).optimizerSet with
  | some o => [Event.setOptimizerOp o]
  | none => []

/-- Observable trace of one worker process running main from the mode
selection onward (lines 73 to 149): mode selection, the initialization
phase with its barrier, then, unless the store reported this process as
master worker (lines 107 and 108 return early), data loading
(line 110), the start print (line 124) and the training loop. -/
def mainTrace (a : Args) (masterReported : Bool) (initAuth : Nat → Tensor)
    (env : Env) (params : List Param) (batches : List Batch) : List Event :=
  let cfg := selectMode a masterReported
  let ip := initPhase cfg.is_master_worker initAuth params
  modeEvents a masterReported ++ ip.2 ++
    (if cfg.is_master_worker then []
     else
       Event.loadDataOp ::
         Event.startLine env.num_all_workers env.my_rank ::
           trainingEvents env batches a.epoch ip.1)

/-- Executes a trace of framework calls under an effect oracle that may
fail any call: calls are made in order and the script installs no
exception handler, so the first error aborts the remainder (there is no
try/except anywhere in cnn.py). -/
def execTrace (f : Event → Except String Unit) : List Event → Except String Unit
  | [] => Except.ok ()
  | e :: rest =>
    match f e with
    | Except.error msg => Except.error msg
    | Except.ok _ => execTrace f rest

/-- Temp tensors allocated by one pass of the synchronization loop over
a parameter list: one zero tensor per parameter that requires a
gradient. -/
def tempsOf (ps : List Param) : List Tensor :=
  ps.flatMap (fun p => if p.grad_req = "null" then [] else [zerosTensor p.shape])

/-- Events issued by one pass of the synchronization loop starting at
enumeration index i, in closed form. -/
def syncEventsFrom (numSamples : Nat) (i : Nat) (ps : List Param) : List Event :=
  (List.enumFrom i ps).flatMap
    (fun q =>
      if q.2.grad_req = "null" then []
      else
        [Event.pushOp q.1 (scaleGrad q.2.grad numSamples) (-(q.1 : Int)),
         Event.pullOp q.1 (PullDest.paramData q.1) (-(q.1 : Int))])

/-- Parameter list after one pass of the synchronization loop starting
at enumeration index i: parameters that require a gradient get the
authoritative value written into their data in place, the rest are
untouched. -/
def pulledParams (auth : Nat → Tensor) (i : Nat) (ps : List Param) : List Param :=
  (List.enumFrom i ps).map
    (fun q => if q.2.grad_req = "null" then q.2 else { q.2 with data := auth q.1 })

/-- Closed form of the synchronization loop: the updated parameters,
the temp list with one fresh zero tensor appended per trainable
parameter, and the push/pull event sequence. -/
theorem runParamsLoop_spec (auth : Nat → Tensor) (n : Nat) :
    ∀ (ps : List Param) (i : Nat) (ts : List Tensor),
      runParamsLoop auth n i ps ts =
        (pulledParams auth i ps, ts ++ tempsOf ps, syncEventsFrom n i ps) := by
  intro ps
  induction ps with
  | nil =>
    intro i ts
    simp [runParamsLoop, pulledParams, tempsOf, syncEventsFrom, List.enumFrom]
  | cons p rest ih =>
    intro i ts
    by_cases h : p.grad_req = "null"
    · simp [runParamsLoop, h, ih, pulledParams, tempsOf, syncEventsFrom,
        List.enumFrom]
    · simp [runParamsLoop, h, ih, pulledParams, tempsOf, syncEventsFrom,
        List.enumFrom, List.append_assoc]

/-- Events issued by the initialization loop starting at enumeration
index i, in closed form: an init per trainable parameter, followed by a
pull on non-master workers. -/
def initEventsFrom (isMaster : Bool) (i : Nat) (ps : List Param) : List Event :=
  (List.enumFrom i ps).flatMap
    (fun q =>
      if q.2.grad_req = "null" then []
      else
        Event.initOp q.1 q.2.data ::
          (if isMaster then []
           else [Event.pullOp q.1 (PullDest.paramData q.1) (-(q.1 : Int))]))

/-- Parameter list after the initialization loop: on a non-master
worker every trainable parameter receives the authoritative starting
value in place; on the master nothing changes. -/
def initPulledParams (isMaster : Bool) (initAuth : Nat → Tensor) (i : Nat)
    (ps : List Param) : List Param :=
  (List.enumFrom i ps).map
    (fun q =>
      if q.2.grad_req = "null" then q.2
      else if isMaster then q.2
      else { q.2 with data := initAuth q.1 })

/-- Closed form of the initialization loop. -/
theorem initLoop_spec (isMaster : Bool) (initAuth : Nat → Tensor) :
    ∀ (ps : List Param) (i : Nat),
      initLoop isMaster initAuth i ps =
        (initPulledParams isMaster initAuth i ps, initEventsFrom isMaster i ps) := by
  intro ps
  induction ps with
  | nil =>
    intro i
    simp [initLoop, initPulledParams, initEventsFrom, List.enumFrom]
  | cons p rest ih =>
    intro i
    by_cases h : p.grad_req = "null"
    · simp [initLoop, h, ih, initPulledParams, initEventsFrom, List.enumFrom]
    · cases isMaster with
      | false => simp [initLoop, h, ih, initPulledParams, initEventsFrom, List.enumFrom]
      | true => simp [initLoop, h, ih, initPulledParams, initEventsFrom, List.enumFrom]

/-- Fields of the progress prints in a trace, in print order: elapsed
time, epoch, iteration, accuracy. -/
def logsOf (evs : List Event) : List (Rat × Nat × Nat × Rat) :=
  evs.filterMap
    (fun e =>
      match e with
      | Event.logLine t ep it ac => some (t, ep, it, ac)
      | _ => none)

/-- Subtrace of accuracy evaluations and progress prints, in order. -/
def evalLogOf (evs : List Event) : List Event :=
  evs.filter (fun e => e.isEval || e.isLog)

/-- Erases the two loop counters from a progress print and keeps every
other event unchanged; used to state that the counters influence
nothing but the printed line. -/
def scrubLog : Event → Event
  | Event.logLine t _ _ ac => Event.logLine t 0 0 ac
  | e => e

/-- Key indices of the init calls in a trace, in call order. -/
def initIdxsOf (evs : List Event) : List Nat :=
  evs.filterMap
    (fun e =>
      match e with
      | Event.initOp i _ => some i
      | _ => none)

/-- Events that the training loop may issue. -/
def Event.isTrainingKind : Event → Bool
  | Event.pushOp _ _ _ => true
  | Event.pullOp _ _ _ => true
  | Event.waitall => true
  | Event.evalAccOp => true
  | Event.logLine _ _ _ _ => true
  | _ => false

/-- Every event of the synchronization loop is a push or a pull. -/
theorem syncEventsFrom_mem {n i : Nat} {ps : List Param} {e : Event}
    (he : e ∈ syncEventsFrom n i ps) : e.isPush = true ∨ e.isPull = true := by
  rcases List.mem_flatMap.1 he with ⟨q, _, he2⟩
  split at he2
  · simp at he2
  · simp at he2
    rcases he2 with h | h <;> subst h <;> simp [Event.isPush, Event.isPull]

/-- The synchronization loop itself issues no barrier. -/
theorem syncEventsFrom_count_waitall (n i : Nat) (ps : List Param) :
    (syncEventsFrom n i ps).count Event.waitall = 0 := by
  rw [List.count_eq_zero]
  intro hmem
  rcases syncEventsFrom_mem hmem with h | h <;> simp [Event.isPush, Event.isPull] at h

/-- Every event of the initialization loop is an init or a pull. -/
theorem initEventsFrom_mem {m : Bool} {i : Nat} {ps : List Param} {e : Event}
    (he : e ∈ initEventsFrom m i ps) :
    (∃ j v, e = Event.initOp j v) ∨ e.isPull = true := by
  rcases List.mem_flatMap.1 he with ⟨q, _, he2⟩
  split at he2
  · simp at he2
  · simp at he2
    rcases he2 with h | h
    · exact Or.inl ⟨q.1, q.2.data, h⟩
    · refine Or.inr ?_
      rw [h.2]
      simp [Event.isPull]

/-- On the master worker the initialization loop only issues init
calls. -/
theorem initEventsFrom_master_mem {i : Nat} {ps : List Param} {e : Event}
    (he : e ∈ initEventsFrom true i ps) : ∃ j v, e = Event.initOp j v := by
  rcases List.mem_flatMap.1 he with ⟨q, _, he2⟩
  split at he2
  · simp at he2
  · simp at he2
    exact ⟨q.1, q.2.data, he2⟩

/-- Unfolds one batch iteration through the closed form of the
synchronization loop. -/
theorem runBatch_spec (env : Env) (epoch : Nat) (b : Batch) (st : TrainState) :
    runBatch env epoch b st =
      (⟨pulledParams (env.auth st.batchCount) 0 (setGrads st.params b.grads),
        st.global_iters + 1, st.batchCount + 1,
        st.temps ++ tempsOf (setGrads st.params b.grads)⟩,
       syncEventsFrom b.numSamples 0 (setGrads st.params b.grads) ++
         [Event.waitall, Event.evalAccOp,
          Event.logLine (env.clock st.batchCount - env.beginTime) epoch
            (st.global_iters + 1) (env.acc st.batchCount)]) := by
  simp [runBatch, runParamsLoop_spec]

/-- Every event of one batch iteration is a training-loop event. -/
theorem runBatch_mem_kind {env : Env} {epoch : Nat} {b : Batch} {st : TrainState}
    {e : Event} (he : e ∈ (runBatch env epoch b st).2) :
    e.isTrainingKind = true := by
  rw [runBatch_spec] at he
  simp at he
  rcases he with h | h
  · rcases syncEventsFrom_mem h with hp | hp
    · cases e <;> simp_all [Event.isPush, Event.isTrainingKind]
    · cases e <;> simp_all [Event.isPull, Event.isTrainingKind]
  · rcases h with h | h | h <;> subst h <;> simp [Event.isTrainingKind]

/-- Splitting a flatMap over a range at the front. -/
theorem rangeFlatMapSucc {α : Type} (n : Nat) (f : Nat → List α) :
    (List.range (n + 1)).flatMap f = f 0 ++ (List.range n).flatMap (fun j => f (j + 1)) := by
  rw [List.range_succ_eq_map, List.flatMap_cons, List.flatMap_map]

/-- The synchronization loop issues neither evaluations nor prints. -/
theorem evalLogOf_sync (n i : Nat) (ps : List Param) :
    evalLogOf (syncEventsFrom n i ps) = [] := by
  rw [evalLogOf, List.filter_eq_nil_iff]
  intro e he
  rcases syncEventsFrom_mem he with h | h
  · cases e <;> simp_all [Event.isPush, Event.isEval, Event.isLog]
  · cases e <;> simp_all [Event.isPull, Event.isEval, Event.isLog]

/-- Filtering for evaluations and prints distributes over append. -/
theorem evalLogOf_append (l1 l2 : List Event) :
    evalLogOf (l1 ++ l2) = evalLogOf l1 ++ evalLogOf l2 :=
  List.filter_append _ _

/-- Extracting print fields distributes over append. -/
theorem logsOf_append (l1 l2 : List Event) :
    logsOf (l1 ++ l2) = logsOf l1 ++ logsOf l2 :=
  List.filterMap_append _ _ _

/-- Evaluations and prints of one batch iteration: exactly one
accuracy evaluation directly followed by one progress print. -/
theorem evalLogOf_runBatch (env : Env) (epoch : Nat) (b : Batch) (st : TrainState) :
    evalLogOf (runBatch env epoch b st).2 =
      [Event.evalAccOp,
       Event.logLine (env.clock st.batchCount - env.beginTime) epoch
         (st.global_iters + 1) (env.acc st.batchCount)] := by
  rw [runBatch_spec]
  simp only [evalLogOf, List.filter_append]
  rw [← evalLogOf, evalLogOf_sync]
  simp [Event.isEval, Event.isLog]

/-- Counter advance and the evaluation/print subtrace of one epoch of
the inner loop, in closed form. -/
theorem runEpochBatches_spec (env : Env) (e : Nat) :
    ∀ (bs : List Batch) (st : TrainState),
      (runEpochBatches env e bs st).1.global_iters = st.global_iters + bs.length ∧
      (runEpochBatches env e bs st).1.batchCount = st.batchCount + bs.length ∧
      evalLogOf (runEpochBatches env e bs st).2 =
        (List.range bs.length).flatMap
          (fun j =>
            [Event.evalAccOp,
             Event.logLine (env.clock (st.batchCount + j) - env.beginTime) e
               (st.global_iters + 1 + j) (env.acc (st.batchCount + j))]) := by
  intro bs
  induction bs with
  | nil =>
    intro st
    simp [runEpochBatches, evalLogOf]
  | cons b rest ih =>
    intro st
    obtain ⟨h1, h2, h3⟩ := ih (runBatch env e b st).1
    refine ⟨?_, ?_, ?_⟩
    · simp only [runEpochBatches]
      rw [h1, runBatch_spec]
      simp
      omega
    · simp only [runEpochBatches]
      rw [h2, runBatch_spec]
      simp
      omega
    · simp only [runEpochBatches, List.length_cons]
      rw [evalLogOf_append, h3, evalLogOf_runBatch, rangeFlatMapSucc, runBatch_spec]
      congr 1
      exact congrArg (List.flatMap (List.range rest.length))
        (funext fun j => by simp [Nat.add_assoc, Nat.add_comm, Nat.add_left_comm])

/-- Counter advance and the evaluation/print subtrace of a run of k
epochs starting at epoch number e, in closed form. -/
theorem runEpochsFrom_spec (env : Env) (bs : List Batch) :
    ∀ (k e : Nat) (st : TrainState),
      (runEpochsFrom env bs e k st).1.global_iters =
        st.global_iters + k * bs.length ∧
      (runEpochsFrom env bs e k st).1.batchCount =
        st.batchCount + k * bs.length ∧
      evalLogOf (runEpochsFrom env bs e k st).2 =
        (List.range k).flatMap
          (fun m =>
            (List.range bs.length).flatMap
              (fun j =>
                [Event.evalAccOp,
                 Event.logLine
                   (env.clock (st.batchCount + (m * bs.length + j)) - env.beginTime)
                   (e + m) (st.global_iters + 1 + (m * bs.length + j))
                   (env.acc (st.batchCount + (m * bs.length + j)))])) := by
  intro k
  induction k with
  | zero =>
    intro e st
    simp [runEpochsFrom, evalLogOf]
  | succ k ih =>
    intro e st
    obtain ⟨g1, g2, g3⟩ := runEpochBatches_spec env e bs st
    obtain ⟨h1, h2, h3⟩ := ih (e + 1) (runEpochBatches env e bs st).1
    refine ⟨?_, ?_, ?_⟩
    · simp only [runEpochsFrom]
      rw [h1, g1]
      ring
    · simp only [runEpochsFrom]
      rw [h2, g2]
      ring
    · simp only [runEpochsFrom]
      rw [evalLogOf_append, g3, h3, g1, g2, rangeFlatMapSucc]
      congr 1
      · exact congrArg (List.flatMap (List.range bs.length))
          (funext fun j => by simp)
      · exact congrArg (List.flatMap (List.range k))
          (funext fun m => congrArg (List.flatMap (List.range bs.length))
            (funext fun j => by
              have ha : st.batchCount + bs.length + (m * bs.length + j) =
                  st.batchCount + ((m + 1) * bs.length + j) := by ring
              have hb : st.global_iters + bs.length + 1 + (m * bs.length + j) =
                  st.global_iters + 1 + ((m + 1) * bs.length + j) := by ring
              have hc : e + 1 + m = e + (m + 1) := by ring
              rw [ha, hb, hc]))

/-- Evaluations and prints of the whole training phase: one evaluation
followed by one print per batch, epoch by epoch, where the print for
the j-th batch of epoch e (overall batch k with k equal to
e * bs.length + j) carries the clock reading at that point minus the
start time, the epoch number, the iteration counter value k + 2, and
the evaluated accuracy, in that order. -/
theorem trainingEvents_evalLog (env : Env) (bs : List Batch) (epochs : Nat)
    (ps : List Param) :
    evalLogOf (trainingEvents env bs epochs ps) =
      (List.range epochs).flatMap
        (fun e =>
          (List.range bs.length).flatMap
            (fun j =>
              [Event.evalAccOp,
               Event.logLine
                 (env.clock (e * bs.length + j) - env.beginTime) e
                 (e * bs.length + j + 2)
                 (env.acc (e * bs.length + j))])) := by
  have h := (runEpochsFrom_spec env bs epochs 0 (initialTrainState ps)).2.2
  rw [trainingEvents, h]
  exact congrArg (List.flatMap (List.range epochs))
    (funext fun m => congrArg (List.flatMap (List.range bs.length))
      (funext fun j => by
        have ha : (initialTrainState ps).batchCount + (m * bs.length + j) =
            m * bs.length + j := by simp [initialTrainState]
        have hb : (initialTrainState ps).global_iters + 1 + (m * bs.length + j) =
            m * bs.length + j + 2 := by simp [initialTrainState]; ring
        have hc : 0 + m = m := Nat.zero_add m
        rw [ha, hb, hc]))

/-- Restricting to evaluations and prints loses no print. -/
theorem logsOf_evalLogOf (evs : List Event) :
    logsOf (evalLogOf evs) = logsOf evs := by
  induction evs with
  | nil => rfl
  | cons e l ih =>
    cases e <;> simp [logsOf, evalLogOf, Event.isEval, Event.isLog] at ih ⊢ <;>
      exact ih

/-- Print-field extraction distributes over flatMap. -/
theorem logsOf_flatMap {α : Type} (l : List α) (F : α → List Event) :
    logsOf (l.flatMap F) = l.flatMap (fun a => logsOf (F a)) := by
  induction l with
  | nil => rfl
  | cons a l ih => rw [List.flatMap_cons, logsOf_append, ih, List.flatMap_cons]

/-- Print fields of the whole training phase in closed form. -/
theorem trainingEvents_logs (env : Env) (bs : List Batch) (epochs : Nat)
    (ps : List Param) :
    logsOf (trainingEvents env bs epochs ps) =
      (List.range epochs).flatMap
        (fun e =>
          (List.range bs.length).map
            (fun j =>
              (env.clock (e * bs.length + j) - env.beginTime, e,
               e * bs.length + j + 2, env.acc (e * bs.length + j)))) := by
  rw [← logsOf_evalLogOf, trainingEvents_evalLog, logsOf_flatMap]
  refine congrArg (List.flatMap (List.range epochs)) (funext fun e => ?_)
  rw [logsOf_flatMap]
  induction List.range bs.length with
  | nil => rfl
  | cons j l ih => rw [List.flatMap_cons, ih, List.map_cons]; rfl

/-- The final parameters, batch counter, temp list and the
counter-scrubbed trace of one epoch do not depend on the epoch number
or on the value of the iteration counter. -/
theorem runEpochBatches_frame (env : Env) :
    ∀ (bs : List Batch) (e e' : Nat) (st st' : TrainState),
      st.params = st'.params → st.batchCount = st'.batchCount →
      st.temps = st'.temps →
      (runEpochBatches env e bs st).1.params =
          (runEpochBatches env e' bs st').1.params ∧
      (runEpochBatches env e bs st).1.batchCount =
          (runEpochBatches env e' bs st').1.batchCount ∧
      (runEpochBatches env e bs st).1.temps =
          (runEpochBatches env e' bs st').1.temps ∧
      (runEpochBatches env e bs st).2.map scrubLog =
          (runEpochBatches env e' bs st').2.map scrubLog := by
  intro bs
  induction bs with
  | nil =>
    intro e e' st st' hp hb ht
    exact ⟨hp, hb, ht, rfl⟩
  | cons b rest ih =>
    intro e e' st st' hp hb ht
    simp only [runEpochBatches, runBatch_spec]
    obtain ⟨i1, i2, i3, i4⟩ := ih e e'
      ⟨pulledParams (env.auth st.batchCount) 0 (setGrads st.params b.grads),
       st.global_iters + 1, st.batchCount + 1,
       st.temps ++ tempsOf (setGrads st.params b.grads)⟩
      ⟨pulledParams (env.auth st'.batchCount) 0 (setGrads st'.params b.grads),
       st'.global_iters + 1, st'.batchCount + 1,
       st'.temps ++ tempsOf (setGrads st'.params b.grads)⟩
      (by simp [hp, hb]) (by simp [hb]) (by simp [ht, hp])
    refine ⟨i1, i2, i3, ?_⟩
    rw [List.map_append, List.map_append, i4]
    simp [scrubLog, hp, hb]

/-- The final parameters, batch counter, temp list and the
counter-scrubbed trace of a run of k epochs do not depend on the
starting epoch number or on the iteration counter. -/
theorem runEpochsFrom_frame (env : Env) (bs : List Batch) :
    ∀ (k e e' : Nat) (st st' : TrainState),
      st.params = st'.params → st.batchCount = st'.batchCount →
      st.temps = st'.temps →
      (runEpochsFrom env bs e k st).1.params =
          (runEpochsFrom env bs e' k st').1.params ∧
      (runEpochsFrom env bs e k st).1.batchCount =
          (runEpochsFrom env bs e' k st').1.batchCount ∧
      (runEpochsFrom env bs e k st).1.temps =
          (runEpochsFrom env bs e' k st').1.temps ∧
      (runEpochsFrom env bs e k st).2.map scrubLog =
          (runEpochsFrom env bs e' k st').2.map scrubLog := by
  intro k
  induction k with
  | zero =>
    intro e e' st st' hp hb ht
    exact ⟨hp, hb, ht, rfl⟩
  | succ k ih =>
    intro e e' st st' hp hb ht
    obtain ⟨a1, a2, a3, a4⟩ := runEpochBatches_frame env bs e e' st st' hp hb ht
    obtain ⟨b1, b2, b3, b4⟩ := ih (e + 1) (e' + 1)
      (runEpochBatches env e bs st).1 (runEpochBatches env e' bs st').1 a1 a2 a3
    refine ⟨b1, b2, b3, ?_⟩
    simp only [runEpochsFrom]
    rw [List.map_append, List.map_append, a4, b4]

/-- Every event of one epoch is a training-loop event. -/
theorem runEpochBatches_mem_kind (env : Env) :
    ∀ (bs : List Batch) (e : Nat) (st : TrainState) (ev : Event),
      ev ∈ (runEpochBatches env e bs st).2 → ev.isTrainingKind = true := by
  intro bs
  induction bs with
  | nil =>
    intro e st ev h
    simp [runEpochBatches] at h
  | cons b rest ih =>
    intro e st ev h
    simp only [runEpochBatches, List.mem_append] at h
    rcases h with h | h
    · exact runBatch_mem_kind h
    · exact ih e _ ev h

/-- Every event of the whole training phase is a training-loop event. -/
theorem runEpochsFrom_mem_kind (env : Env) (bs : List Batch) :
    ∀ (k e : Nat) (st : TrainState) (ev : Event),
      ev ∈ (runEpochsFrom env bs e k st).2 → ev.isTrainingKind = true := by
  intro k
  induction k with
  | zero =>
    intro e st ev h
    simp [runEpochsFrom] at h
  | succ k ih =>
    intro e st ev h
    simp only [runEpochsFrom, List.mem_append] at h
    rcases h with h | h
    · exact runEpochBatches_mem_kind env bs e st ev h
    · exact ih (e + 1) _ ev h

/-- The init calls of the initialization loop carry strictly increasing
key indices, all at least the starting enumeration index. -/
theorem initIdxsOf_increasing (m : Bool) :
    ∀ (ps : List Param) (i : Nat),
      List.Pairwise (· < ·) (initIdxsOf (initEventsFrom m i ps)) ∧
      ∀ j ∈ initIdxsOf (initEventsFrom m i ps), i ≤ j := by
  intro ps
  induction ps with
  | nil =>
    intro i
    simp [initEventsFrom, initIdxsOf, List.enumFrom]
  | cons p rest ih =>
    intro i
    obtain ⟨hpw, hlb⟩ := ih (i + 1)
    by_cases h : p.grad_req = "null"
    · refine ⟨?_, ?_⟩
      · simpa [initEventsFrom, List.enumFrom, List.flatMap_cons, h] using hpw
      · intro j hj
        have : i + 1 ≤ j := by
          refine hlb j ?_
          simpa [initEventsFrom, List.enumFrom, List.flatMap_cons, h] using hj
        omega
    · cases m with
      | true =>
        refine ⟨?_, ?_⟩
        · have hunf : initIdxsOf (initEventsFrom true i (p :: rest)) =
              i :: initIdxsOf (initEventsFrom true (i + 1) rest) := by
            simp [initEventsFrom, List.enumFrom, List.flatMap_cons, h, initIdxsOf]
          rw [hunf, List.pairwise_cons]
          exact ⟨fun j hj => Nat.lt_of_lt_of_le (Nat.lt_succ_self i) (hlb j hj), hpw⟩
        · intro j hj
          have hunf : initIdxsOf (initEventsFrom true i (p :: rest)) =
              i :: initIdxsOf (initEventsFrom true (i + 1) rest) := by
            simp [initEventsFrom, List.enumFrom, List.flatMap_cons, h, initIdxsOf]
          rw [hunf] at hj
          rcases List.mem_cons.1 hj with hj | hj
          · omega
          · have := hlb j hj
            omega
      | false =>
        refine ⟨?_, ?_⟩
        · have hunf : initIdxsOf (initEventsFrom false i (p :: rest)) =
              i :: initIdxsOf (initEventsFrom false (i + 1) rest) := by
            simp [initEventsFrom, List.enumFrom, List.flatMap_cons, h, initIdxsOf]
          rw [hunf, List.pairwise_cons]
          exact ⟨fun j hj => Nat.lt_of_lt_of_le (Nat.lt_succ_self i) (hlb j hj), hpw⟩
        · intro j hj
          have hunf : initIdxsOf (initEventsFrom false i (p :: rest)) =
              i :: initIdxsOf (initEventsFrom false (i + 1) rest) := by
            simp [initEventsFrom, List.enumFrom, List.flatMap_cons, h, initIdxsOf]
          rw [hunf] at hj
          rcases List.mem_cons.1 hj with hj | hj
          · omega
          · have := hlb j hj
            omega

/-- Execution aborts at the first failing call and returns its error
unchanged: there is no handler in the script. -/
theorem execTrace_error (f : Event → Except String Unit) :
    ∀ (pre : List Event) (e : Event) (post : List Event) (msg : String),
      (∀ e2 ∈ pre, f e2 = Except.ok ()) → f e = Except.error msg →
      execTrace f (pre ++ e :: post) = Except.error msg := by
  intro pre
  induction pre with
  | nil =>
    intro e post msg _ hf
    simp [execTrace, hf]
  | cons a l ih =>
    intro e post msg hok hf
    have ha := hok a (by simp)
    simp only [List.cons_append, execTrace, ha]
    exact ih e post msg (fun e2 he2 => hok e2 (by simp [he2])) hf

/-- Concrete oracle environment used by the witnesses. -/
def envW : Env :=
  ⟨fun _ _ => [(1 : Rat)], fun k => (k : Rat), 0, fun _ => 1 / 2, 2, 1⟩

/-- Concrete trainable parameter used by the witnesses. -/
def paramW : Param := ⟨"write", [(5 : Rat)], [(3 : Rat)], 1⟩

/-- Concrete frozen parameter used by the witnesses. -/
def paramNullW : Param := ⟨"null", [(7 : Rat)], [(2 : Rat)], 1⟩

/-- Concrete batch used by the witnesses. -/
def batchW : Batch := ⟨4, [[(8 : Rat)], [(6 : Rat)]]⟩

/-- C2: the synchronization mode selected from the command-line flags
determines the store type and optimizer.  The mix-sync flag creates a
dist_async store whose optimizer is an Adam set exactly when the store
reports this worker as master; the dcasgd flag (when mix-sync is off)
creates a dist_async store with a DCASGD optimizer set by the master
worker; the local flag (when both are off) creates a local store with
an Adam optimizer set unconditionally; with no flag a dist_sync store
is created with an Adam optimizer set by the master worker.  In every
case the configured learning rate is the one inside the optimizer. -/
theorem c2_mode_selection (a : Args) (m : Bool) :
    (a.mix_sync = true →
      selectMode a m =
        { storeType := "dist_async", is_master_worker := m,
          optimizerSet :=
            if m then some (OptimizerCfg.adam a.learning_rate) else none }) ∧
    (a.mix_sync = false → a.dcasgd = true →
      selectMode a m =
        { storeType := "dist_async", is_master_worker := m,
          optimizerSet :=
            if m then some (OptimizerCfg.dcasgdOpt a.learning_rate) else none }) ∧
    (a.mix_sync = false → a.dcasgd = false → a.run_local = true →
      selectMode a m =
        { storeType := "local", is_master_worker := false,
          optimizerSet := some (OptimizerCfg.adam a.learning_rate) }) ∧
    (a.mix_sync = false → a.dcasgd = false → a.run_local = false →
      selectMode a m =
        { storeType := "dist_sync", is_master_worker := m,
          optimizerSet :=
            if m then some (OptimizerCfg.adam a.learning_rate) else none }) ∧
    (∀ o, (selectMode a m).optimizerSet = some o → o.lr = a.learning_rate) := by
  refine ⟨?_, ?_, ?_, ?_, ?_⟩
  · intro h1
    simp [selectMode, h1]
  · intro h1 h2
    simp [selectMode, h1, h2]
  · intro h1 h2 h3
    simp [selectMode, h1, h2, h3]
  · intro h1 h2 h3
    simp [selectMode, h1, h2, h3]
  · intro o ho
    by_cases h1 : a.mix_sync <;> by_cases h2 : a.dcasgd <;>
      by_cases h3 : a.run_local <;> by_cases hm : m <;>
        simp [selectMode, h1, h2, h3, hm] at ho <;>
          simp [← ho, OptimizerCfg.lr]

/-- Witness for C2 at a concrete flag assignment. -/
theorem c2_witness :
    selectMode { mix_sync := true } true =
      { storeType := "dist_async", is_master_worker := true,
        optimizerSet := some (OptimizerCfg.adam (1 / 100)) } := by
  simpa using (c2_mode_selection { mix_sync := true } true).1 rfl

/-- C8: the command-line interface declares exactly nine flags: the
learning rate with default 0.01, the batch size with default 32, the
data shard index with default 0, the epoch count with default 5, the
mix-sync and dcasgd mode switches, the split-by-class partitioning
switch, the cpu device switch, and the local store switch. -/
theorem c8_cli_flags :
    cliFlags.length = 9 ∧
    ⟨some "-lr", "--learning-rate", ArgDefault.ratVal (1 / 100)⟩ ∈ cliFlags ∧
    ⟨some "-bs", "--batch-size", ArgDefault.natVal 32⟩ ∈ cliFlags ∧
    ⟨some "-ds", "--data-slice-idx", ArgDefault.natVal 0⟩ ∈ cliFlags ∧
    ⟨some "-ep", "--epoch", ArgDefault.natVal 5⟩ ∈ cliFlags ∧
    ⟨some "-ms", "--mix-sync", ArgDefault.storeTrueFlag⟩ ∈ cliFlags ∧
    ⟨some "-dc", "--dcasgd", ArgDefault.storeTrueFlag⟩ ∈ cliFlags ∧
    ⟨some "-sc", "--split-by-class", ArgDefault.storeTrueFlag⟩ ∈ cliFlags ∧
    ⟨some "-c", "--cpu", ArgDefault.storeTrueFlag⟩ ∈ cliFlags ∧
    ⟨none, "--local", ArgDefault.storeTrueFlag⟩ ∈ cliFlags := by
  refine ⟨rfl, ?_, ?_, ?_, ?_, ?_, ?_, ?_, ?_, ?_⟩ <;> simp [cliFlags]

/-- C9: the mode branches are tried in the fixed order mix-sync, then
dcasgd, then local: with mix-sync set the dcasgd and local flags are
ignored, and the DCASGD optimizer can never be selected; with mix-sync
clear and dcasgd set the local flag is ignored.  In particular with
both mix-sync and dcasgd set the store is dist_async and the master
worker sets an Adam optimizer. -/
theorem c9_mode_precedence (a : Args) (m : Bool) :
    (a.mix_sync = true →
      selectMode a m = selectMode { a with dcasgd := false, run_local := false } m ∧
      (selectMode a m).storeType = "dist_async" ∧
      (∀ q, ¬ (selectMode a m).optimizerSet = some (OptimizerCfg.dcasgdOpt q)) ∧
      (m = true →
        (selectMode a m).optimizerSet = some (OptimizerCfg.adam a.learning_rate))) ∧
    (a.mix_sync = false → a.dcasgd = true →
      selectMode a m = selectMode { a with run_local := false } m) := by
  constructor
  · intro h1
    refine ⟨by simp [selectMode, h1], by simp [selectMode, h1], ?_, ?_⟩
    · intro q hq
      by_cases hm : m <;> simp [selectMode, h1, hm] at hq
    · intro hm
      simp [selectMode, h1, hm]
  · intro h1 h2
    simp [selectMode, h1, h2]

/-- Witness for C9 with both mode flags set. -/
theorem c9_witness :
    (selectMode { mix_sync := true, dcasgd := true } true).storeType = "dist_async" ∧
    (selectMode { mix_sync := true, dcasgd := true } true).optimizerSet =
      some (OptimizerCfg.adam (1 / 100)) := by
  refine ⟨(c9_mode_precedence { mix_sync := true, dcasgd := true } true).1 rfl |>.2.1, ?_⟩
  simpa using
    ((c9_mode_precedence { mix_sync := true, dcasgd := true } true).1 rfl).2.2.2 rfl

/-- C1: in every training iteration, for each parameter whose gradient
requirement is not "null", at its enumeration index idx in the full
parameter list, the script pushes the local gradient divided by the
batch sample count with priority -idx and directly afterwards pulls
the authoritative value for index idx with priority -idx; parameters
with gradient requirement "null" contribute no events but still
consume their enumeration index; after the loop over all parameters
exactly one global wait-for-all barrier is issued before the batch is
finished. -/
theorem c1_batch_sync (env : Env) (epoch : Nat) (b : Batch) (st : TrainState) :
    (runBatch env epoch b st).2 =
      ((List.enumFrom 0 (setGrads st.params b.grads)).flatMap fun q =>
          if q.2.grad_req = "null" then []
          else
            [Event.pushOp q.1 (scaleGrad q.2.grad b.numSamples) (-(q.1 : Int)),
             Event.pullOp q.1 (PullDest.paramData q.1) (-(q.1 : Int))]) ++
        [Event.waitall, Event.evalAccOp,
         Event.logLine (env.clock st.batchCount - env.beginTime) epoch
           (st.global_iters + 1) (env.acc st.batchCount)] ∧
    (runBatch env epoch b st).2.count Event.waitall = 1 := by
  constructor
  · rw [runBatch_spec]
    rfl
  · rw [runBatch_spec, List.count_append, syncEventsFrom_count_waitall]
    simp [List.count_cons]

/-- Witness for C1 at a concrete batch and state. -/
theorem c1_witness :
    (runBatch envW 0 batchW ⟨[paramW, paramNullW], 1, 0, []⟩).2.count
        Event.waitall = 1 :=
  (c1_batch_sync envW 0 batchW ⟨[paramW, paramNullW], 1, 0, []⟩).2

/-- C10: each pull of the training loop writes the authoritative value
directly into the live parameter tensor (the pull destination is the
data of the parameter at that index), so parameters change only in
place through the pull; the zero-filled temp tensor allocated before
each pull is still exactly a zero tensor afterwards, and neither the
resulting parameters nor the events exchanged with the store depend on
the temp list in any way. -/
theorem c10_temp_frame (auth : Nat → Tensor) (n : Nat) (ps : List Param)
    (ts : List Tensor) :
    (∀ i d pr, Event.pullOp i d pr ∈ (runParamsLoop auth n 0 ps ts).2.2 →
        d = PullDest.paramData i) ∧
    (runParamsLoop auth n 0 ps ts).1 = pulledParams auth 0 ps ∧
    (runParamsLoop auth n 0 ps ts).2.2 = syncEventsFrom n 0 ps ∧
    (runParamsLoop auth n 0 ps ts).2.1 = ts ++ tempsOf ps ∧
    (∀ t ∈ tempsOf ps, ∃ k, t = zerosTensor k) ∧
    (∀ ts' : List Tensor,
      (runParamsLoop auth n 0 ps ts').1 = (runParamsLoop auth n 0 ps ts).1 ∧
      (runParamsLoop auth n 0 ps ts').2.2 = (runParamsLoop auth n 0 ps ts).2.2) := by
  refine ⟨?_, ?_, ?_, ?_, ?_, ?_⟩
  · intro i d pr hmem
    rw [runParamsLoop_spec] at hmem
    rcases List.mem_flatMap.1 hmem with ⟨q, _, he2⟩
    split at he2
    · simp at he2
    · simp at he2
      obtain ⟨h1, h2, _⟩ := he2
      rw [h2, h1]
  · rw [runParamsLoop_spec]
  · rw [runParamsLoop_spec]
  · rw [runParamsLoop_spec]
  · intro t ht
    rcases List.mem_flatMap.1 ht with ⟨p, _, ht2⟩
    split at ht2
    · simp at ht2
    · simp at ht2
      exact ⟨p.shape, ht2⟩
  · intro ts'
    rw [runParamsLoop_spec, runParamsLoop_spec]
    exact ⟨rfl, rfl⟩

/-- Witness for C10 at a concrete parameter list. -/
theorem c10_witness :
    PullDest.paramData 0 = PullDest.paramData 0 ∧
    (runParamsLoop (fun _ => [(1 : Rat)]) 4 0 [paramW, paramNullW] []).2.1 =
      [] ++ tempsOf [paramW, paramNullW] :=
  ⟨(c10_temp_frame (fun _ => [(1 : Rat)]) 4 [paramW, paramNullW] []).1 0
      (PullDest.paramData 0) 0
      (by simp [runParamsLoop_spec, syncEventsFrom, List.enumFrom, paramW, paramNullW]),
   (c10_temp_frame (fun _ => [(1 : Rat)]) 4 [paramW, paramNullW] []).2.2.2.1⟩

/-- Length of a flatMap whose blocks all have the same length. -/
theorem length_flatMap_const {α β : Type} :
    ∀ (l : List α) (F : α → List β) (c : Nat),
      (∀ a ∈ l, (F a).length = c) → (l.flatMap F).length = l.length * c := by
  intro l
  induction l with
  | nil =>
    intro F c _
    simp
  | cons a l ih =>
    intro F c h
    rw [List.flatMap_cons, List.length_append, h a (by simp),
      ih F c (fun x hx => h x (by simp [hx]))]
    simp [Nat.succ_mul, Nat.add_comm]

/-- C5: the iteration counter starts at 1 and is incremented exactly
once per processed batch before the progress line is printed, so the
k-th print overall (k counted from 0) reports iteration k + 2 and the
first printed iteration value is 2; and neither the iteration counter
value nor the epoch number influences the resulting parameters, the
batch counter, the temp list, or any event other than the two counter
fields of the printed lines. -/
theorem c5_counters (env : Env) (bs : List Batch) (epochs : Nat) (ps : List Param) :
    (initialTrainState ps).global_iters = 1 ∧
    (runEpochsFrom env bs 0 epochs (initialTrainState ps)).1.global_iters =
      1 + epochs * bs.length ∧
    logsOf (trainingEvents env bs epochs ps) =
      (List.range epochs).flatMap
        (fun e =>
          (List.range bs.length).map
            (fun j =>
              (env.clock (e * bs.length + j) - env.beginTime, e,
               e * bs.length + j + 2, env.acc (e * bs.length + j)))) ∧
    (0 < epochs → 0 < bs.length →
      (logsOf (trainingEvents env bs epochs ps)).head? =
        some (env.clock 0 - env.beginTime, 0, 2, env.acc 0)) ∧
    (∀ (e e2 g g2 : Nat) (qs : List Param) (bc : Nat) (ts : List Tensor),
      (runEpochsFrom env bs e epochs ⟨qs, g, bc, ts⟩).1.params =
          (runEpochsFrom env bs e2 epochs ⟨qs, g2, bc, ts⟩).1.params ∧
      (runEpochsFrom env bs e epochs ⟨qs, g, bc, ts⟩).2.map scrubLog =
          (runEpochsFrom env bs e2 epochs ⟨qs, g2, bc, ts⟩).2.map scrubLog) := by
  refine ⟨rfl, ?_, trainingEvents_logs env bs epochs ps, ?_, ?_⟩
  · rw [(runEpochsFrom_spec env bs epochs 0 (initialTrainState ps)).1]
    simp [initialTrainState, Nat.add_comm]
  · intro he hb
    rw [trainingEvents_logs]
    obtain ⟨k, hk⟩ : ∃ k, epochs = k + 1 := ⟨epochs - 1, by omega⟩
    obtain ⟨l, hl⟩ : ∃ l, bs.length = l + 1 := ⟨bs.length - 1, by omega⟩
    rw [hk, hl, List.range_succ_eq_map, List.flatMap_cons,
      List.range_succ_eq_map, List.map_cons]
    simp
  · intro e e2 g g2 qs bc ts
    have := runEpochsFrom_frame env bs epochs e e2 ⟨qs, g, bc, ts⟩ ⟨qs, g2, bc, ts⟩
      rfl rfl rfl
    exact ⟨this.1, this.2.2.2⟩

/-- Witness for C5 at a concrete configuration. -/
theorem c5_witness :
    (logsOf (trainingEvents envW [batchW] 1 [paramW])).head? =
      some (envW.clock 0 - envW.beginTime, 0, 2, envW.acc 0) :=
  (c5_counters envW [batchW] 1 [paramW]).2.2.2.1 (by decide) (by decide)

/-- C7: accuracy is evaluated once after every training batch, so the
number of progress prints equals the number of processed batches, and
the evaluation/print subtrace consists, batch by batch, of one
accuracy evaluation directly followed by one print whose fields are
the elapsed wall-clock time since training began, the current epoch,
the current iteration counter, and the test accuracy, in that order. -/
theorem c7_eval_and_print (env : Env) (bs : List Batch) (epochs : Nat)
    (ps : List Param) :
    evalLogOf (trainingEvents env bs epochs ps) =
      (List.range epochs).flatMap
        (fun e =>
          (List.range bs.length).flatMap
            (fun j =>
              [Event.evalAccOp,
               Event.logLine
                 (env.clock (e * bs.length + j) - env.beginTime) e
                 (e * bs.length + j + 2)
                 (env.acc (e * bs.length + j))])) ∧
    (logsOf (trainingEvents env bs epochs ps)).length = epochs * bs.length := by
  refine ⟨trainingEvents_evalLog env bs epochs ps, ?_⟩
  rw [trainingEvents_logs]
  rw [length_flatMap_const (List.range epochs) _ bs.length
    (fun e _ => by simp)]
  simp

/-- Witness for C7 at a concrete configuration. -/
theorem c7_witness :
    (logsOf (trainingEvents envW [batchW] 2 [paramW, paramNullW])).length = 2 :=
  (c7_eval_and_print envW [batchW] 2 [paramW, paramNullW]).2

/-- C4: before training, the script calls init at each trainable
parameter's enumeration index with that parameter's current data, the
init indices being strictly increasing and hence unique; on a
non-master worker each init is directly followed by a pull of the
authoritative starting value into the parameter tensor with priority
-idx, the parameter data after the phase holds the pulled values, and
the phase is closed by a global wait-for-all barrier that precedes
everything the training loop does. -/
theorem c4_init_phase (initAuth : Nat → Tensor) (ps : List Param) :
    (∀ isMaster : Bool, ∀ q ∈ List.enumFrom 0 ps, ¬ q.2.grad_req = "null" →
        Event.initOp q.1 q.2.data ∈ (initPhase isMaster initAuth ps).2) ∧
    (∀ isMaster : Bool,
      List.Pairwise (· < ·) (initIdxsOf (initPhase isMaster initAuth ps).2)) ∧
    ((initPhase false initAuth ps).2 =
      ((List.enumFrom 0 ps).flatMap fun q =>
          if q.2.grad_req = "null" then []
          else
            [Event.initOp q.1 q.2.data,
             Event.pullOp q.1 (PullDest.paramData q.1) (-(q.1 : Int))]) ++
        [Event.waitall]) ∧
    ((initPhase false initAuth ps).1 = initPulledParams false initAuth 0 ps) ∧
    (∀ (a : Args) (m : Bool) (env : Env) (bs : List Batch),
      (selectMode a m).is_master_worker = false →
      mainTrace a m initAuth env ps bs =
        modeEvents a m ++ (initPhase false initAuth ps).2 ++
          Event.loadDataOp ::
            Event.startLine env.num_all_workers env.my_rank ::
              trainingEvents env bs a.epoch (initPhase false initAuth ps).1) := by
  refine ⟨?_, ?_, ?_, ?_, ?_⟩
  · intro isMaster q hq hnull
    have : Event.initOp q.1 q.2.data ∈ initEventsFrom isMaster 0 ps := by
      refine List.mem_flatMap.2 ⟨q, hq, ?_⟩
      simp [hnull]
    simp [initPhase, initLoop_spec]
    exact this
  · intro isMaster
    have hunf : initIdxsOf (initPhase isMaster initAuth ps).2 =
        initIdxsOf (initEventsFrom isMaster 0 ps) := by
      simp [initPhase, initLoop_spec, initIdxsOf, List.filterMap_append]
    rw [hunf]
    exact (initIdxsOf_increasing isMaster ps 0).1
  · simp only [initPhase, initLoop_spec]
    rfl
  · simp [initPhase, initLoop_spec]
  · intro a m env bs hm
    simp [mainTrace, hm, initPhase]

/-- Witness for C4 at a concrete parameter list. -/
theorem c4_witness :
    Event.initOp 0 paramW.data ∈
      (initPhase false (fun _ => [(9 : Rat)]) [paramW, paramNullW]).2 :=
  (c4_init_phase (fun _ => [(9 : Rat)]) [paramW, paramNullW]).1 false
    ⟨0, paramW⟩ (by simp [List.enumFrom]) (by simp [paramW])

/-- C3: in the two asynchronous modes, this process calls set_optimizer
exactly when the store reports it as master worker; the master's whole
trace is that optimizer call, one init per trainable parameter, and
the closing barrier, so the master never pulls starting values, never
loads data, and never pushes, evaluates or prints. -/
theorem c3_master_worker (a : Args) (m : Bool) (initAuth : Nat → Tensor)
    (env : Env) (ps : List Param) (bs : List Batch)
    (hasync : a.mix_sync = true ∨ a.dcasgd = true) :
    ((∃ o, Event.setOptimizerOp o ∈ mainTrace a m initAuth env ps bs) ↔ m = true) ∧
    (m = true →
      mainTrace a m initAuth env ps bs =
        Event.setOptimizerOp
            (if a.mix_sync = true then OptimizerCfg.adam a.learning_rate
             else OptimizerCfg.dcasgdOpt a.learning_rate) ::
          (initEventsFrom true 0 ps ++ [Event.waitall])) ∧
    (m = true →
      (∀ q ∈ List.enumFrom 0 ps, ¬ q.2.grad_req = "null" →
          Event.initOp q.1 q.2.data ∈ mainTrace a m initAuth env ps bs) ∧
      (∀ i d pr, ¬ Event.pullOp i d pr ∈ mainTrace a m initAuth env ps bs) ∧
      ¬ Event.loadDataOp ∈ mainTrace a m initAuth env ps bs ∧
      (∀ i v pr, ¬ Event.pushOp i v pr ∈ mainTrace a m initAuth env ps bs) ∧
      ¬ Event.evalAccOp ∈ mainTrace a m initAuth env ps bs ∧
      (∀ t ep it ac, ¬ Event.logLine t ep it ac ∈ mainTrace a m initAuth env ps bs)) := by
  have hmaster : (selectMode a m).is_master_worker = m := by
    by_cases h1 : a.mix_sync = true
    · simp [selectMode, h1]
    · have h2 : a.dcasgd = true := by
        rcases hasync with h | h
        · exact absurd h h1
        · exact h
      simp [selectMode, h1, h2]
  have hmode : modeEvents a m =
      if m then
        [Event.setOptimizerOp
          (if a.mix_sync = true then OptimizerCfg.adam a.learning_rate
           else OptimizerCfg.dcasgdOpt a.learning_rate)]
      else [] := by
    by_cases h1 : a.mix_sync = true
    · cases m <;> simp [modeEvents, selectMode, h1]
    · have h2 : a.dcasgd = true := by
        rcases hasync with h | h
        · exact absurd h h1
        · exact h
      cases m <;> simp [modeEvents, selectMode, h1, h2]
  have htrue : m = true →
      mainTrace a m initAuth env ps bs =
        Event.setOptimizerOp
            (if a.mix_sync = true then OptimizerCfg.adam a.learning_rate
             else OptimizerCfg.dcasgdOpt a.learning_rate) ::
          (initEventsFrom true 0 ps ++ [Event.waitall]) := by
    intro hm
    subst hm
    simp [mainTrace, hmaster, hmode, initPhase, initLoop_spec]
  refine ⟨?_, htrue, ?_⟩
  · constructor
    · rintro ⟨o, ho⟩
      cases m with
      | true => rfl
      | false =>
        exfalso
        have hfalse : mainTrace a false initAuth env ps bs =
            initEventsFrom false 0 ps ++ [Event.waitall] ++
              Event.loadDataOp ::
                Event.startLine env.num_all_workers env.my_rank ::
                  trainingEvents env bs a.epoch
                    (initPulledParams false initAuth 0 ps) := by
          simp [mainTrace, hmaster, hmode, initPhase, initLoop_spec]
        rw [hfalse] at ho
        simp only [List.mem_append, List.mem_cons, List.mem_singleton] at ho
        rcases ho with (ho | ho) | ho | ho | ho
        · rcases initEventsFrom_mem ho with ⟨j, v, hh⟩ | hh
          · simp at hh
          · simp [Event.isPull] at hh
        · simp at ho
        · simp at ho
        · simp at ho
        · have := runEpochsFrom_mem_kind env bs a.epoch 0 _ _ ho
          simp [Event.isTrainingKind] at this
    · intro hm
      rw [htrue hm]
      exact ⟨if a.mix_sync = true then OptimizerCfg.adam a.learning_rate
        else OptimizerCfg.dcasgdOpt a.learning_rate, by simp⟩
  · intro hm
    rw [htrue hm]
    refine ⟨?_, ?_, ?_, ?_, ?_, ?_⟩
    · intro q hq hnull
      refine List.mem_cons.2 (Or.inr (List.mem_append.2 (Or.inl ?_)))
      refine List.mem_flatMap.2 ⟨q, hq, ?_⟩
      simp [hnull]
    · intro i d pr hmem
      rcases List.mem_cons.1 hmem with h | h
      · simp at h
      · rcases List.mem_append.1 h with h | h
        · rcases initEventsFrom_master_mem h with ⟨j, v, hh⟩
          simp at hh
        · simp at h
    · intro hmem
      rcases List.mem_cons.1 hmem with h | h
      · simp at h
      · rcases List.mem_append.1 h with h | h
        · rcases initEventsFrom_master_mem h with ⟨j, v, hh⟩
          simp at hh
        · simp at h
    · intro i v pr hmem
      rcases List.mem_cons.1 hmem with h | h
      · simp at h
      · rcases List.mem_append.1 h with h | h
        · rcases initEventsFrom_master_mem h with ⟨j, w, hh⟩
          simp at hh
        · simp at h
    · intro hmem
      rcases List.mem_cons.1 hmem with h | h
      · simp at h
      · rcases List.mem_append.1 h with h | h
        · rcases initEventsFrom_master_mem h with ⟨j, v, hh⟩
          simp at hh
        · simp at h
    · intro t ep it ac hmem
      rcases List.mem_cons.1 hmem with h | h
      · simp at h
      · rcases List.mem_append.1 h with h | h
        · rcases initEventsFrom_master_mem h with ⟨j, v, hh⟩
          simp at hh
        · simp at h

/-- Witness for C3: the master worker in mix-sync mode never loads
data. -/
theorem c3_witness :
    ¬ Event.loadDataOp ∈
      mainTrace { mix_sync := true } true (fun _ => [(9 : Rat)]) envW
        [paramW] [batchW] :=
  ((c3_master_worker { mix_sync := true } true (fun _ => [(9 : Rat)]) envW
      [paramW] [batchW] (Or.inl rfl)).2.2 rfl).2.2.1

/-- C6: the script catches, classifies and retries nothing: whenever
the oracle makes one framework call of the trace fail, every call
before it having succeeded, the whole execution returns exactly that
error. -/
theorem c6_no_error_handling (a : Args) (m : Bool) (initAuth : Nat → Tensor)
    (env : Env) (ps : List Param) (bs : List Batch)
    (f : Event → Except String Unit) (pre : List Event) (e : Event)
    (post : List Event) (msg : String)
    (hsplit : mainTrace a m initAuth env ps bs = pre ++ e :: post)
    (hok : ∀ e2 ∈ pre, f e2 = Except.ok ())
    (herr : f e = Except.error msg) :
    execTrace f (mainTrace a m initAuth env ps bs) = Except.error msg := by
  rw [hsplit]
  exact execTrace_error f pre e post msg hok herr

/-- Witness for C6: failing the very first call aborts the run with
that error. -/
theorem c6_witness :
    execTrace (fun _ => Except.error "fail")
        (mainTrace {} false (fun _ => []) envW [] []) =
      Except.error "fail" :=
  c6_no_error_handling {} false (fun _ => []) envW [] []
    (fun _ => Except.error "fail") [] Event.waitall
    [Event.loadDataOp, Event.startLine envW.num_all_workers envW.my_rank]
    "fail" (by simp [mainTrace, selectMode, modeEvents, initPhase, initLoop,
      trainingEvents, runEpochsFrom, runEpochBatches, initialTrainState, envW])
    (by simp) rfl

end GeoMX
